import Mathlib

/-!
Verification of the go-comet leaderboard service (Django back-end).

Shallow embedding of the leaderboard application's data model and operations:
  * `models.py`   — `GameSession`, `LeaderboardEntry`
  * `views.py`    — `submit_score`, `get_player_rank`
  * `tasks.py`    — `update_all_ranks`, `update_user_rank`

The relational store is modelled as explicit lists of rows; the key/value
cache is modelled by tracking presence of the single key the leaderboard
logic touches (`leaderboard_top_50`).  Machine integers in the source are
Django `PositiveIntegerField`/`PositiveBigIntegerField` columns, modelled as
`Nat`; the raw request `score` field (which may be absent or non-integer in
the JSON payload) is modelled as `Option Int`.
-/

namespace GoComet

/-- A row of `LeaderboardEntry` (models.py): one per user, keyed by `user`,
with `total_score : PositiveBigIntegerField` and a nullable `rank`. -/
structure Entry where
  userId : Nat
  total_score : Nat
  rank : Option Nat
deriving Repr, DecidableEq

/-- A row of `GameSession` (models.py): immutable play-through record. The
`timestamp` column is set from the external clock and is not modelled. -/
structure Session where
  sid : Nat
  userId : Nat
  score : Nat
  game_mode : String
deriving Repr, DecidableEq

/-- The store state: the `GameSession` table, the `LeaderboardEntry` table,
and whether the cache currently holds the `leaderboard_top_50` key. -/
structure DB where
  sessions : List Session
  entries : List Entry
  cacheTop50 : Bool
deriving Repr, DecidableEq

def emptyDB : DB := { sessions := [], entries := [], cacheTop50 := false }

/-- `LeaderboardEntry.objects.get(user_id=uid)` / `get(user=user)`: the row
for a given user (rows are unique per user in the source schema; we take the
first match). -/
def getEntry (l : List Entry) (uid : Nat) : Option Entry :=
  l.find? (fun e => e.userId == uid)

/-- Whether a `LeaderboardEntry` row exists for the user. -/
def hasEntry (l : List Entry) (uid : Nat) : Bool :=
  l.any (fun e => e.userId == uid)

/-- The user's `total_score`, or 0 when the user has no entry. -/
def totalOf (uid : Nat) (l : List Entry) : Nat :=
  match getEntry l uid with
  | some e => e.total_score
  | none => 0

/-- `LeaderboardEntry.objects.filter(total_score__gt=t).count()` — the count
used for rank derivation in views.py and tasks.py. -/
def countBetterThan (l : List Entry) (t : Nat) : Nat :=
  (l.filter (fun e => t < e.total_score)).length

/-- The `F('total_score') + score` atomic increment on the user's row
(views.py line 84), applied per row. -/
def bumpScore (uid n : Nat) (e : Entry) : Entry :=
  if e.userId == uid then { e with total_score := e.total_score + n } else e

/-- `entry.rank = r; entry.save(update_fields=['rank'])` applied to the
user's row, per row. -/
def setRankF (uid r : Nat) (e : Entry) : Entry :=
  if e.userId == uid then { e with rank := some r } else e

/-- Persist rank `r` on the user's `LeaderboardEntry` row. -/
def setRank (uid r : Nat) (l : List Entry) : List Entry :=
  l.map (setRankF uid r)

/-- Serialized user per `UserSerializer` (serializers.py: fields `id`,
`username`, `date_joined`).  The `username` and `date_joined` values live in
Django's external auth `User` table, outside this repository; they are
abstracted as strings determined by the id. -/
structure SerializedUser where
  id : Nat
  username : String
  date_joined : String
deriving Repr, DecidableEq

/-- A JSON field value as produced by the serializers. -/
inductive FieldVal where
  | num (n : Nat)
  | str (s : String)
  | userObj (u : SerializedUser)
deriving Repr, DecidableEq

/-- Serialized response body: an ordered list of top-level JSON fields. -/
abbrev Body := List (String × FieldVal)

def userSerialize (uid : Nat) : SerializedUser :=
  { id := uid, username := toString uid, date_joined := "" }

/-- `GameSessionSerializer` (serializers.py): fields `id`, `user`, `score`,
`game_mode`, `timestamp`.  The timestamp value comes from the external clock
and is abstracted. -/
def gameSessionSerialize (sess : Session) : Body :=
  [ ("id", .num sess.sid),
    ("user", .userObj (userSerialize sess.userId)),
    ("score", .num sess.score),
    ("game_mode", .str sess.game_mode),
    ("timestamp", .str "") ]

/-- A score-submission request: `request.user.id`, the raw `score` field of
the JSON body (`none` models a missing or non-integer value, failing
Python's `isinstance(score, int)`), and `game_mode`. -/
structure SubmitRequest where
  userId : Nat
  score : Option Int
  game_mode : String
deriving Repr, DecidableEq

/-- Result of the `submit_score` view: HTTP status, response body, store
state after the request, and whether the in-transaction rank save
(views.py line 93, `save(update_fields=['rank'])`) was executed. -/
structure SubmitResult where
  status : Nat
  body : Body
  state : DB
  inlineRankWrote : Bool
deriving Repr, DecidableEq

/-- `submit_score` (views.py lines 26–124).  Validates the input, then in
one transaction: creates the `GameSession`, get-or-creates the
`LeaderboardEntry` (incrementing `total_score` with an `F()` expression if
it exists), recomputes the submitter's rank as `countBetterThan + 1`, and
saves the rank.  The enqueued `update_user_rank` task runs later and is
modelled separately.  Returns 201 with the serialized game session. -/
def submit_score (req : SubmitRequest) (s : DB) : SubmitResult :=
  match req.score with
  | none =>
    { status := 400, body := [("error", .str "Score must be a non-negative integer")],
      state := s, inlineRankWrote := false }
  | some sc =>
    if sc < 0 then
      { status := 400, body := [("error", .str "Score must be a non-negative integer")],
        state := s, inlineRankWrote := false }
    else if req.game_mode.length = 0 ∨ 50 < req.game_mode.length then
      { status := 400, body := [("error", .str "Game mode must be provided and less than 50 characters")],
        state := s, inlineRankWrote := false }
    else
      let n := sc.toNat
      let sess : Session :=
        { sid := s.sessions.length + 1, userId := req.userId, score := n,
          game_mode := req.game_mode }
      let entries1 :=
        if hasEntry s.entries req.userId then s.entries.map (bumpScore req.userId n)
        else s.entries ++ [{ userId := req.userId, total_score := n, rank := none }]
      let newTotal := totalOf req.userId entries1
      let newRank := countBetterThan entries1 newTotal + 1
      { status := 201,
        body := gameSessionSerialize sess,
        state := { sessions := s.sessions ++ [sess],
                   entries := setRank req.userId newRank entries1,
                   cacheTop50 := s.cacheTop50 },
        inlineRankWrote := true }

/-- `submit_score` on a run where the in-transaction rank recalculation
(views.py lines 88–93) raises: the whole `transaction.atomic()` block is
rolled back — session creation and `total_score` increment included — and
the `except` handler returns 500 (views.py lines 117–124). -/
def submit_score_fixup_fails (req : SubmitRequest) (s : DB) : SubmitResult :=
  let r := submit_score req s
  if r.status = 201 then
    { status := 500, body := [("error", .str "Internal server error")],
      state := s, inlineRankWrote := false }
  else r

/-- `update_user_rank` task (tasks.py lines 135–189): fetch the user's
entry (no-op result message if absent), compute
`new_rank = countBetterThan(total_score) + 1`, and if it differs from the
stored rank, save it and delete the `leaderboard_top_50` cache key when
`new_rank <= 50`.  The boolean records whether the rank save executed. -/
def update_user_rank (uid : Nat) (s : DB) : DB × Bool :=
  match getEntry s.entries uid with
  | none => (s, false)
  | some e =>
    let newRank := countBetterThan s.entries e.total_score + 1
    if e.rank = some newRank then (s, false)
    else
      ({ s with entries := setRank uid newRank s.entries,
                cacheTop50 := if newRank ≤ 50 then false else s.cacheTop50 }, true)

/-- One run of the deferred `update_user_rank` task after `submit_score`'s
transaction has committed.  `ok = false` models the task failing (its own
save never applied, retries exhausted — `RankUpdateFailed`): the committed
store state is left exactly as it was. -/
def run_fixup_task (uid : Nat) (ok : Bool) (s : DB) : DB :=
  if ok then (update_user_rank uid s).1 else s

/-- Descending `total_score` order used by
`order_by('-total_score')` in `update_all_ranks` (tasks.py line 33);
ties are left in stable (row) order. -/
def scoreGe (a b : Entry) : Prop := b.total_score ≤ a.total_score

instance : DecidableRel scoreGe := fun a b =>
  inferInstanceAs (Decidable (b.total_score ≤ a.total_score))

instance : IsTotal Entry scoreGe := ⟨fun a b => Nat.le_total b.total_score a.total_score⟩

instance : IsTrans Entry scoreGe := ⟨fun _ _ _ hab hbc => Nat.le_trans hbc hab⟩

/-- `for rank, entry in enumerate(entries, 1): entry.rank = rank` on the
descending-ordered entries (tasks.py lines 41–44). -/
def assignRanks : Nat → List Entry → List Entry
  | _, [] => []
  | r, e :: es => { e with rank := some r } :: assignRanks (r + 1) es

/-- `update_all_ranks` task (tasks.py lines 20–68): order ALL
`LeaderboardEntry` rows by `total_score` descending (no `total_score > 0`
filter) and assign rank = 1-based position; rows whose rank already matches
are skipped by `bulk_update`, which does not change the resulting state. -/
def update_all_ranks (s : DB) : DB :=
  { s with entries := assignRanks 1 (List.insertionSort scoreGe s.entries) }

/-- The rank-independent content of an entry: `(userId, total_score)`. -/
def stripRank (e : Entry) : Nat × Nat := (e.userId, e.total_score)

/-- Result of the `get_player_rank` view for a user (views.py lines
208–285), restricted to the leaderboard-entry lookup: the store state after
the request, whether the rank save at line 263 executed, and the
`(total_score, rank)` pair serialized in the 200 response (`none` when the
user has no entry — the "has not played" branch). -/
structure RankLookup where
  state : DB
  wroteRank : Bool
  response : Option (Nat × Option Nat)
deriving Repr, DecidableEq

/-- `get_player_rank` (views.py lines 231–276): fetch the entry, compute
`current_rank = countBetterThan(total_score) + 1`, persist it when it
differs from the stored rank, and serialize the entry. -/
def get_player_rank (uid : Nat) (s : DB) : RankLookup :=
  match getEntry s.entries uid with
  | none => { state := s, wroteRank := false, response := none }
  | some e =>
    let currentRank := countBetterThan s.entries e.total_score + 1
    if e.rank = some currentRank then
      { state := s, wroteRank := false, response := some (e.total_score, e.rank) }
    else
      { state := { s with entries := setRank uid currentRank s.entries },
        wroteRank := true, response := some (e.total_score, some currentRank) }

/-- Run a sequence of `submit_score` requests, threading the store state. -/
def runSubmits : List SubmitRequest → DB → DB
  | [], s => s
  | r :: rs, s => runSubmits rs (submit_score r s).state

/-- Sum of the recorded session scores of one user. -/
def sumScores (uid : Nat) (l : List Session) : Nat :=
  ((l.filter (fun x => x.userId == uid)).map Session.score).sum

/-- The integer score of a request, as stored when the request is valid. -/
def scoreNat (req : SubmitRequest) : Nat :=
  match req.score with
  | some v => v.toNat
  | none => 0

/-! ### Helper lemmas -/

theorem setRankF_userId (uid r : Nat) (e : Entry) : (setRankF uid r e).userId = e.userId := by
  unfold setRankF; split <;> rfl

theorem setRankF_total (uid r : Nat) (e : Entry) :
    (setRankF uid r e).total_score = e.total_score := by
  unfold setRankF; split <;> rfl

theorem bumpScore_userId (uid n : Nat) (e : Entry) : (bumpScore uid n e).userId = e.userId := by
  unfold bumpScore; split <;> rfl

theorem getEntry_setRank (uid r : Nat) (l : List Entry) (u : Nat) :
    getEntry (setRank uid r l) u = (getEntry l u).map (setRankF uid r) := by
  unfold getEntry setRank
  rw [List.find?_map]
  have hp : ((fun e : Entry => e.userId == u) ∘ setRankF uid r)
      = (fun e : Entry => e.userId == u) := by
    funext e
    simp [Function.comp, setRankF_userId]
  rw [hp]

theorem countBetterThan_setRank (uid r : Nat) (l : List Entry) (t : Nat) :
    countBetterThan (setRank uid r l) t = countBetterThan l t := by
  unfold countBetterThan setRank
  rw [List.filter_map, List.length_map]
  have hp : ((fun e : Entry => decide (t < e.total_score)) ∘ setRankF uid r)
      = (fun e : Entry => decide (t < e.total_score)) := by
    funext e
    simp [Function.comp, setRankF_total]
  rw [hp]

theorem totalOf_setRank (u uid r : Nat) (l : List Entry) :
    totalOf u (setRank uid r l) = totalOf u l := by
  unfold totalOf
  rw [getEntry_setRank]
  cases getEntry l u with
  | none => rfl
  | some e => exact setRankF_total uid r e

theorem totalOf_bump_self (l : List Entry) (uid n : Nat) (h : hasEntry l uid = true) :
    totalOf uid (l.map (bumpScore uid n)) = totalOf uid l + n := by
  induction l with
  | nil => simp [hasEntry] at h
  | cons e es ih =>
    cases he : (e.userId == uid) with
    | true =>
      have hbu : ((bumpScore uid n e).userId == uid) = true := by
        rw [bumpScore_userId]; exact he
      simp only [totalOf, getEntry]
      rw [List.map_cons, List.find?_cons, List.find?_cons, hbu, he]
      simp [bumpScore, he]
    | false =>
      have h' : hasEntry es uid = true := by simpa [hasEntry, he] using h
      have hbu : ((bumpScore uid n e).userId == uid) = false := by
        rw [bumpScore_userId]; exact he
      have hrec := ih h'
      simp only [totalOf, getEntry] at hrec ⊢
      rw [List.map_cons, List.find?_cons, List.find?_cons, hbu, he]
      exact hrec

theorem totalOf_bump_other (l : List Entry) (uid u n : Nat) (h : u ≠ uid) :
    totalOf u (l.map (bumpScore uid n)) = totalOf u l := by
  induction l with
  | nil => rfl
  | cons e es ih =>
    cases he : (e.userId == u) with
    | true =>
      have heu : e.userId = u := by simpa using he
      have hne : (e.userId == uid) = false := by
        simp only [beq_eq_false_iff_ne, ne_eq]
        rw [heu]; exact h
      have hbu : ((bumpScore uid n e).userId == u) = true := by
        rw [bumpScore_userId]; exact he
      simp only [totalOf, getEntry]
      rw [List.map_cons, List.find?_cons, List.find?_cons, hbu, he]
      simp [bumpScore, hne]
    | false =>
      have hbu : ((bumpScore uid n e).userId == u) = false := by
        rw [bumpScore_userId]; exact he
      have hrec := ih
      simp only [totalOf, getEntry] at hrec ⊢
      rw [List.map_cons, List.find?_cons, List.find?_cons, hbu, he]
      exact hrec

theorem getEntry_of_hasEntry_false (l : List Entry) (uid : Nat) (h : hasEntry l uid = false) :
    getEntry l uid = none := by
  unfold getEntry
  rw [List.find?_eq_none]
  intro e he
  simp only [Bool.not_eq_true]
  by_contra hc
  have : hasEntry l uid = true := by
    unfold hasEntry
    rw [List.any_eq_true]
    exact ⟨e, he, by simpa using hc⟩
  rw [this] at h
  exact Bool.true_eq_false.mp h

theorem totalOf_of_hasEntry_false (l : List Entry) (uid : Nat) (h : hasEntry l uid = false) :
    totalOf uid l = 0 := by
  unfold totalOf
  rw [getEntry_of_hasEntry_false l uid h]

theorem totalOf_append_new_self (l : List Entry) (uid n : Nat) (h : hasEntry l uid = false) :
    totalOf uid (l ++ [{ userId := uid, total_score := n, rank := none }]) = n := by
  have h0 : getEntry l uid = none := getEntry_of_hasEntry_false l uid h
  unfold getEntry at h0
  unfold totalOf getEntry
  rw [List.find?_append, h0]
  simp

theorem totalOf_append_new_other (l : List Entry) (uid u n : Nat) (h : u ≠ uid) :
    totalOf u (l ++ [{ userId := uid, total_score := n, rank := none }]) = totalOf u l := by
  unfold totalOf getEntry
  rw [List.find?_append]
  have hx : (List.find? (fun e => e.userId == u)
      [({ userId := uid, total_score := n, rank := none } : Entry)]) = none := by
    simp
    exact fun heq => h heq.symm
  rw [hx]
  cases List.find? (fun e => e.userId == u) l <;> rfl

theorem sumScores_append (u : Nat) (l : List Session) (x : Session) :
    sumScores u (l ++ [x]) = sumScores u l + (if x.userId == u then x.score else 0) := by
  unfold sumScores
  rw [List.filter_append]
  cases hx : (x.userId == u) with
  | true => simp [hx]
  | false => simp [hx]

theorem update_user_rank_sessions (uid : Nat) (s : DB) :
    (update_user_rank uid s).1.sessions = s.sessions := by
  unfold update_user_rank
  cases getEntry s.entries uid with
  | none => rfl
  | some e => dsimp only; split <;> rfl

theorem update_user_rank_totalOf (uid u : Nat) (s : DB) :
    totalOf u (update_user_rank uid s).1.entries = totalOf u s.entries := by
  unfold update_user_rank
  cases getEntry s.entries uid with
  | none => rfl
  | some e =>
    dsimp only
    split
    · rfl
    · exact totalOf_setRank u uid _ s.entries

theorem run_fixup_task_sessions (uid : Nat) (ok : Bool) (s : DB) :
    (run_fixup_task uid ok s).sessions = s.sessions := by
  unfold run_fixup_task
  cases ok with
  | true => exact update_user_rank_sessions uid s
  | false => rfl

theorem run_fixup_task_totalOf (uid u : Nat) (ok : Bool) (s : DB) :
    totalOf u (run_fixup_task uid ok s).entries = totalOf u s.entries := by
  unfold run_fixup_task
  cases ok with
  | true => exact update_user_rank_totalOf uid u s
  | false => rfl

/-! ### Concrete states used by scenarios, witnesses and counterexamples -/

def reqA : SubmitRequest := { userId := 1, score := some 100, game_mode := "classic" }

def reqB : SubmitRequest := { userId := 2, score := some 150, game_mode := "classic" }

def s10w : DB :=
  { sessions := [], entries := [⟨1, 100, some 7⟩, ⟨2, 200, some 1⟩], cacheTop50 := false }

def s5cex : DB := { sessions := [], entries := [⟨1, 100, some 1⟩], cacheTop50 := false }

def s5w : DB := { sessions := [], entries := [⟨1, 300, some 9⟩], cacheTop50 := true }

def s4cex0 : DB := { sessions := [], entries := [], cacheTop50 := true }

def s4w : DB := { sessions := [], entries := [⟨1, 50, some 3⟩], cacheTop50 := true }

/-! ### Claim theorems -/

/-- C9: the incremental fix-up is idempotent: running `update_user_rank`
twice in succession with no intervening score change yields the same rank
as running it once, and the second run performs no write and leaves the
state unchanged. -/
theorem update_user_rank_idempotent (uid : Nat) (s : DB) :
    update_user_rank uid (update_user_rank uid s).1 = ((update_user_rank uid s).1, false) := by
  rcases hg : getEntry s.entries uid with _ | e
  · simp [update_user_rank, hg]
  · have hp : (e.userId == uid) = true := by
      have h' := hg
      unfold getEntry at h'
      have h'' := @List.find?_some Entry (fun x => x.userId == uid) e s.entries h'
      simpa using h''
    by_cases hr : e.rank = some (countBetterThan s.entries e.total_score + 1)
    · simp [update_user_rank, hg, hr]
    · have h1 : update_user_rank uid s =
          ({ s with entries := setRank uid (countBetterThan s.entries e.total_score + 1) s.entries,
                    cacheTop50 :=
                      if countBetterThan s.entries e.total_score + 1 ≤ 50 then false
                      else s.cacheTop50 }, true) := by
        simp [update_user_rank, hg, hr]
      rw [h1]
      have hg2 : getEntry (setRank uid (countBetterThan s.entries e.total_score + 1) s.entries) uid
          = some { e with rank := some (countBetterThan s.entries e.total_score + 1) } := by
        rw [getEntry_setRank, hg]
        simp [setRankF, hp]
      have hc2 : countBetterThan
            (setRank uid (countBetterThan s.entries e.total_score + 1) s.entries) e.total_score
          = countBetterThan s.entries e.total_score :=
        countBetterThan_setRank _ _ s.entries e.total_score
      simp [update_user_rank, hg2, hc2]

/-- C10: `get_player_rank`, though specified as a read, recomputes the rank
as `countBetterThan(total_score) + 1` against the live store for every
player with a `LeaderboardEntry`, and whenever the recomputed rank differs
from the stored rank it persists the new rank to the entry before returning
it. -/
theorem get_player_rank_recomputes_and_writes (s : DB) (uid : Nat) (e : Entry)
    (h : getEntry s.entries uid = some e) :
    (get_player_rank uid s).response
      = some (e.total_score, some (countBetterThan s.entries e.total_score + 1))
    ∧ ((get_player_rank uid s).wroteRank = true
        ↔ e.rank ≠ some (countBetterThan s.entries e.total_score + 1))
    ∧ (get_player_rank uid s).state.entries
      = (if e.rank = some (countBetterThan s.entries e.total_score + 1) then s.entries
         else setRank uid (countBetterThan s.entries e.total_score + 1) s.entries) := by
  by_cases hr : e.rank = some (countBetterThan s.entries e.total_score + 1)
  · simp [get_player_rank, h, hr]
  · simp [get_player_rank, h, hr]

/-- Witness for C10 at a concrete store: user 1 has stored rank 7 but one
better player, so the lookup recomputes rank 2 and persists it. -/
theorem get_player_rank_recomputes_and_writes_witness :
    (get_player_rank 1 s10w).response
      = some (100, some (countBetterThan s10w.entries 100 + 1))
    ∧ ((get_player_rank 1 s10w).wroteRank = true
        ↔ (some 7 : Option Nat) ≠ some (countBetterThan s10w.entries 100 + 1))
    ∧ (get_player_rank 1 s10w).state.entries
      = (if (some 7 : Option Nat) = some (countBetterThan s10w.entries 100 + 1) then s10w.entries
         else setRank 1 (countBetterThan s10w.entries 100 + 1) s10w.entries) :=
  get_player_rank_recomputes_and_writes s10w 1 ⟨1, 100, some 7⟩ rfl

/-- C5 counterexample: the in-transaction rank recalculation of
`submit_score` (views.py lines 88–93) performs the rank save even when the
computed rank equals the stored rank.  User 1 already holds rank 1 with
total 100; submitting score 0 recomputes rank 1 (unchanged) yet the save
at line 93 still executes. -/
theorem submit_inline_rank_write_unconditional_cex :
    getEntry s5cex.entries 1 = some ⟨1, 100, some 1⟩
    ∧ countBetterThan s5cex.entries 100 + 1 = 1
    ∧ (submit_score { userId := 1, score := some 0, game_mode := "classic" } s5cex).inlineRankWrote
        = true
    ∧ (submit_score { userId := 1, score := some 0, game_mode := "classic" } s5cex).state.entries
        = s5cex.entries := by decide

/-- C5 amended: the deferred fix-up task `update_user_rank` computes
`new_rank = countBetterThan(total_score) + 1` and writes the rank only when
it differs from the stored rank (leaving the state untouched otherwise);
the synchronous recalculation inside `submit_score`, by contrast, always
performs a rank write on every successful submission. -/
theorem fixup_rank_write_only_on_change :
    (∀ (s : DB) (uid : Nat) (e : Entry), getEntry s.entries uid = some e →
      (((update_user_rank uid s).2 = true
          ↔ e.rank ≠ some (countBetterThan s.entries e.total_score + 1))
        ∧ (e.rank = some (countBetterThan s.entries e.total_score + 1) →
            update_user_rank uid s = (s, false))))
    ∧ (∀ (req : SubmitRequest) (s : DB), (submit_score req s).status = 201 →
        (submit_score req s).inlineRankWrote = true) := by
  constructor
  · intro s uid e h
    by_cases hr : e.rank = some (countBetterThan s.entries e.total_score + 1)
    · simp [update_user_rank, h, hr]
    · simp [update_user_rank, h, hr]
  · intro req s h
    obtain ⟨uid, sc, gm⟩ := req
    cases sc with
    | none => simp [submit_score] at h
    | some v =>
      by_cases h1 : v < 0
      · simp [submit_score, h1] at h
      · by_cases h2 : gm.length = 0 ∨ 50 < gm.length
        · simp [submit_score, h1, h2] at h
        · simp [submit_score, h1, h2]

/-- Witness for C5 amended: user 1 stores rank 9 but computes rank 1, so
the task write fires; and a concrete successful submission performs the
inline rank write. -/
theorem fixup_rank_write_only_on_change_witness :
    ((update_user_rank 1 s5w).2 = true
      ↔ (some 9 : Option Nat) ≠ some (countBetterThan s5w.entries 300 + 1))
    ∧ (submit_score reqA emptyDB).inlineRankWrote = true :=
  ⟨(fixup_rank_write_only_on_change.1 s5w 1 ⟨1, 300, some 9⟩ rfl).1,
   fixup_rank_write_only_on_change.2 reqA emptyDB rfl⟩

/-- C4 counterexample: a submission whose resulting rank is 1 (≤ 50) never
invalidates the top-50 cache: `submit_score` stores the computed rank
inside the transaction without touching the cache, and the deferred
`update_user_rank` task then recomputes the same rank, so its
`cache.delete` (guarded by `entry.rank != new_rank`) is skipped. -/
theorem topk_cache_not_invalidated_cex :
    getEntry (submit_score reqA s4cex0).state.entries 1 = some ⟨1, 100, some 1⟩
    ∧ (submit_score reqA s4cex0).state.cacheTop50 = true
    ∧ (update_user_rank 1 (submit_score reqA s4cex0).state).1.cacheTop50 = true
    ∧ (update_user_rank 1 (submit_score reqA s4cex0).state).2 = false := by decide

/-- C4 amended: the `leaderboard_top_50` cache entry is deleted exactly
when the deferred `update_user_rank` task finds a stored rank different
from the freshly computed `countBetterThan + 1` and that computed rank is
≤ 50; a submission whose stored rank already equals the computed rank does
not invalidate the cache, even when the rank is ≤ 50. -/
theorem topk_cache_invalidation_iff (s : DB) (uid : Nat) (h : s.cacheTop50 = true) :
    (update_user_rank uid s).1.cacheTop50 = false
      ↔ ∃ e, getEntry s.entries uid = some e
          ∧ e.rank ≠ some (countBetterThan s.entries e.total_score + 1)
          ∧ countBetterThan s.entries e.total_score + 1 ≤ 50 := by
  rcases hg : getEntry s.entries uid with _ | e
  · simp [update_user_rank, hg, h]
  · by_cases hr : e.rank = some (countBetterThan s.entries e.total_score + 1)
    · simp [update_user_rank, hg, hr, h]
    · by_cases h50 : countBetterThan s.entries e.total_score + 1 ≤ 50
      · have h50' : countBetterThan s.entries e.total_score ≤ 49 := by omega
        simp [update_user_rank, hg, hr, h50, h50']
      · have h50' : 49 < countBetterThan s.entries e.total_score := by omega
        simp [update_user_rank, hg, hr, h50, h50', h]

/-- Witness for C4 amended: user 1 stores rank 3 but computes rank 1 ≤ 50,
so the cache key is deleted. -/
theorem topk_cache_invalidation_iff_witness :
    (update_user_rank 1 s4w).1.cacheTop50 = false
      ↔ ∃ e, getEntry s4w.entries 1 = some e
          ∧ e.rank ≠ some (countBetterThan s4w.entries e.total_score + 1)
          ∧ countBetterThan s4w.entries e.total_score + 1 ≤ 50 :=
  topk_cache_invalidation_iff s4w 1 rfl

/-- C6: a submission with a missing/non-integer score, a negative score, an
empty game_mode, or a game_mode longer than 50 characters returns a 400
validation error and performs no mutation: the store state is returned
unchanged (no `GameSession` created, no `LeaderboardEntry` created or
modified). -/
theorem submit_invalid_no_mutation (req : SubmitRequest) (s : DB)
    (h : req.score = none ∨ (∃ v, req.score = some v ∧ v < 0)
        ∨ req.game_mode.length = 0 ∨ 50 < req.game_mode.length) :
    (submit_score req s).status = 400 ∧ (submit_score req s).state = s := by
  obtain ⟨uid, sc, gm⟩ := req
  cases sc with
  | none => exact ⟨rfl, rfl⟩
  | some v =>
    rcases h with h | ⟨w, hw, hneg⟩ | h | h
    · exact absurd h (by simp)
    · have hv : v = w := by simpa using hw
      subst hv
      constructor <;> simp [submit_score, hneg]
    · by_cases hv : v < 0
      · constructor <;> simp [submit_score, hv]
      · constructor <;> simp [submit_score, hv, h]
    · by_cases hv : v < 0
      · constructor <;> simp [submit_score, hv]
      · constructor <;> simp [submit_score, hv, h]

/-- Witness for C6: submitting score −5 returns 400 and leaves the empty
store unchanged. -/
theorem submit_invalid_no_mutation_witness :
    (submit_score { userId := 1, score := some (-5), game_mode := "classic" } emptyDB).status = 400
    ∧ (submit_score { userId := 1, score := some (-5), game_mode := "classic" } emptyDB).state
        = emptyDB :=
  submit_invalid_no_mutation _ emptyDB (Or.inr (Or.inl ⟨-5, rfl, by decide⟩))

/-- C3 counterexample: the 201 response of a concrete valid submission is
the serialized `GameSession` only — its top-level fields are id, user,
score, game_mode, timestamp — and it contains neither the player's updated
total_score nor their rank. -/
theorem submit_response_lacks_total_and_rank_cex :
    (submit_score reqA emptyDB).status = 201
    ∧ (submit_score reqA emptyDB).body.map Prod.fst
        = ["id", "user", "score", "game_mode", "timestamp"]
    ∧ "total_score" ∉ (submit_score reqA emptyDB).body.map Prod.fst
    ∧ "rank" ∉ (submit_score reqA emptyDB).body.map Prod.fst := by decide

/-- C3 amended: every valid submission's 201 response body is exactly the
`GameSessionSerializer` output for the created session (fields id, user,
score, game_mode, timestamp); the updated total_score and rank are not part
of the response (they are only recorded in telemetry events). -/
theorem submit_response_is_created_session (req : SubmitRequest) (s : DB)
    (h : (submit_score req s).status = 201) :
    (submit_score req s).body
      = gameSessionSerialize
          { sid := s.sessions.length + 1, userId := req.userId, score := scoreNat req,
            game_mode := req.game_mode }
    ∧ (submit_score req s).body.map Prod.fst = ["id", "user", "score", "game_mode", "timestamp"]
    ∧ "total_score" ∉ (submit_score req s).body.map Prod.fst
    ∧ "rank" ∉ (submit_score req s).body.map Prod.fst := by
  obtain ⟨uid, sc, gm⟩ := req
  cases sc with
  | none => simp [submit_score] at h
  | some v =>
    by_cases h1 : v < 0
    · simp [submit_score, h1] at h
    · by_cases h2 : gm.length = 0 ∨ 50 < gm.length
      · simp [submit_score, h1, h2] at h
      · have hb : (submit_score ⟨uid, some v, gm⟩ s).body
            = gameSessionSerialize
                { sid := s.sessions.length + 1, userId := uid, score := v.toNat,
                  game_mode := gm } := by
          simp [submit_score, h1, h2]
        have hf : ((gameSessionSerialize
            { sid := s.sessions.length + 1, userId := uid, score := v.toNat,
              game_mode := gm }).map Prod.fst)
            = ["id", "user", "score", "game_mode", "timestamp"] := rfl
        refine ⟨by simpa [scoreNat] using hb, ?_, ?_, ?_⟩
        · rw [hb]; exact hf
        · rw [hb, hf]; decide
        · rw [hb, hf]; decide

/-- Witness for C3 amended at a concrete valid submission. -/
theorem submit_response_is_created_session_witness :
    (submit_score reqA emptyDB).body
      = gameSessionSerialize
          { sid := emptyDB.sessions.length + 1, userId := reqA.userId, score := scoreNat reqA,
            game_mode := reqA.game_mode }
    ∧ (submit_score reqA emptyDB).body.map Prod.fst
        = ["id", "user", "score", "game_mode", "timestamp"]
    ∧ "total_score" ∉ (submit_score reqA emptyDB).body.map Prod.fst
    ∧ "rank" ∉ (submit_score reqA emptyDB).body.map Prod.fst :=
  submit_response_is_created_session reqA emptyDB rfl

/-- C2 counterexample: when the in-transaction rank recalculation fails,
`transaction.atomic()` rolls back the whole request — the final state holds
no session and no score, even though the plain run of the same submission
appends a session.  The session append and total_score increment are NOT
preserved, contradicting the claim for the synchronous fix-up step. -/
theorem fixup_failure_rolls_back_cex :
    (submit_score_fixup_fails reqA emptyDB).status = 500
    ∧ (submit_score_fixup_fails reqA emptyDB).state = emptyDB
    ∧ (submit_score_fixup_fails reqA emptyDB).state.sessions = []
    ∧ (submit_score reqA emptyDB).state.sessions ≠ []
    ∧ totalOf 1 (submit_score_fixup_fails reqA emptyDB).state.entries = 0 := by decide

theorem submit_state_sessions (uid : Nat) (v : Int) (gm : String) (s : DB)
    (h1 : ¬v < 0) (h2 : ¬(gm.length = 0 ∨ 50 < gm.length)) :
    (submit_score ⟨uid, some v, gm⟩ s).state.sessions
      = s.sessions
        ++ [{ sid := s.sessions.length + 1, userId := uid, score := v.toNat,
              game_mode := gm }] := by
  simp [submit_score, h1, h2]

theorem submit_state_entries (uid : Nat) (v : Int) (gm : String) (s : DB)
    (h1 : ¬v < 0) (h2 : ¬(gm.length = 0 ∨ 50 < gm.length)) :
    ∃ nr, (submit_score ⟨uid, some v, gm⟩ s).state.entries
      = setRank uid nr
          (if hasEntry s.entries uid then s.entries.map (bumpScore uid v.toNat)
           else s.entries ++ [{ userId := uid, total_score := v.toNat, rank := none }]) :=
  ⟨countBetterThan
      (if hasEntry s.entries uid then s.entries.map (bumpScore uid v.toNat)
       else s.entries ++ [{ userId := uid, total_score := v.toNat, rank := none }])
      (totalOf uid
        (if hasEntry s.entries uid then s.entries.map (bumpScore uid v.toNat)
         else s.entries ++ [{ userId := uid, total_score := v.toNat, rank := none }])) + 1,
   by simp [submit_score, h1, h2]⟩

theorem totalOf_submit (u uid : Nat) (v : Int) (gm : String) (s : DB)
    (h1 : ¬v < 0) (h2 : ¬(gm.length = 0 ∨ 50 < gm.length)) :
    totalOf u (submit_score ⟨uid, some v, gm⟩ s).state.entries
      = totalOf u s.entries + (if u = uid then v.toNat else 0) := by
  obtain ⟨nr, hnr⟩ := submit_state_entries uid v gm s h1 h2
  rw [hnr, totalOf_setRank]
  by_cases hu : u = uid
  · subst hu
    by_cases hE : hasEntry s.entries u = true
    · rw [if_pos hE, totalOf_bump_self s.entries u v.toNat hE, if_pos rfl]
    · have hE' : hasEntry s.entries u = false := by
        revert hE; cases hasEntry s.entries u <;> simp
      rw [if_neg hE, totalOf_append_new_self s.entries u v.toNat hE',
        totalOf_of_hasEntry_false s.entries u hE', if_pos rfl, Nat.zero_add]
  · by_cases hE : hasEntry s.entries uid = true
    · rw [if_pos hE, totalOf_bump_other s.entries uid u v.toNat hu, if_neg hu, Nat.add_zero]
    · rw [if_neg hE, totalOf_append_new_other s.entries uid u v.toNat hu, if_neg hu,
        Nat.add_zero]

/-- C2 amended: the deferred `update_user_rank` task runs after
`submit_score`'s transaction has committed and only writes the rank, so a
task failure (modelled by `run_fixup_task _ false`, the task's own write
never applied) preserves the committed session append and total_score
increment; a failure of the synchronous rank recalculation inside the
transaction, by contrast, rolls back the session append and the increment
together with it. -/
theorem score_write_survives_task_failure (req : SubmitRequest) (s : DB) (ok : Bool)
    (h : (submit_score req s).status = 201) :
    (run_fixup_task req.userId ok (submit_score req s).state).sessions
      = s.sessions
        ++ [{ sid := s.sessions.length + 1, userId := req.userId, score := scoreNat req,
              game_mode := req.game_mode }]
    ∧ totalOf req.userId (run_fixup_task req.userId ok (submit_score req s).state).entries
      = totalOf req.userId s.entries + scoreNat req := by
  obtain ⟨uid, sc, gm⟩ := req
  cases sc with
  | none => simp [submit_score] at h
  | some v =>
    by_cases h1 : v < 0
    · simp [submit_score, h1] at h
    · by_cases h2 : gm.length = 0 ∨ 50 < gm.length
      · simp [submit_score, h1, h2] at h
      · constructor
        · rw [run_fixup_task_sessions, submit_state_sessions uid v gm s h1 h2]
          simp [scoreNat]
        · rw [run_fixup_task_totalOf, totalOf_submit uid uid v gm s h1 h2]
          simp [scoreNat]

/-- Witness for C2 amended: a concrete submission whose deferred fix-up
task fails still keeps the appended session and the incremented score. -/
theorem score_write_survives_task_failure_witness :
    (run_fixup_task reqA.userId false (submit_score reqA emptyDB).state).sessions
      = emptyDB.sessions
        ++ [{ sid := emptyDB.sessions.length + 1, userId := reqA.userId, score := scoreNat reqA,
              game_mode := reqA.game_mode }]
    ∧ totalOf reqA.userId (run_fixup_task reqA.userId false (submit_score reqA emptyDB).state).entries
      = totalOf reqA.userId emptyDB.entries + scoreNat reqA :=
  score_write_survives_task_failure reqA emptyDB false rfl

theorem submit_preserves_sum_inv (r : SubmitRequest) (s : DB)
    (h : ∀ w, totalOf w s.entries = sumScores w s.sessions) (u : Nat) :
    totalOf u (submit_score r s).state.entries
      = sumScores u (submit_score r s).state.sessions := by
  obtain ⟨uid, sc, gm⟩ := r
  cases sc with
  | none => exact h u
  | some v =>
    by_cases h1 : v < 0
    · simpa [submit_score, h1] using h u
    · by_cases h2 : gm.length = 0 ∨ 50 < gm.length
      · simpa [submit_score, h1, h2] using h u
      · rw [totalOf_submit u uid v gm s h1 h2, submit_state_sessions uid v gm s h1 h2,
          sumScores_append, ← h u]
        congr 1
        by_cases hu : u = uid
        · subst hu; simp
        · have hu' : ¬(uid = u) := fun hh => hu hh.symm
          simp [hu, hu']

/-- C7: for every sequence of submissions starting from the empty store,
each player's `total_score` equals the sum of that player's recorded
session scores — the first successful submission creates the entry with
that score, each later one increments it, and invalid submissions change
nothing. -/
theorem total_score_is_session_sum (reqs : List SubmitRequest) (u : Nat) :
    totalOf u (runSubmits reqs emptyDB).entries
      = sumScores u (runSubmits reqs emptyDB).sessions := by
  have main : ∀ (rs : List SubmitRequest) (s : DB),
      (∀ w, totalOf w s.entries = sumScores w s.sessions) →
      ∀ w, totalOf w (runSubmits rs s).entries = sumScores w (runSubmits rs s).sessions := by
    intro rs
    induction rs with
    | nil => intro s hs w; exact hs w
    | cons r rs ih =>
      intro s hs w
      exact ih (submit_score r s).state (submit_preserves_sum_inv r s hs) w
  exact main reqs emptyDB (fun _ => rfl) u

def dbA : DB := (submit_score reqA emptyDB).state

def dbAB : DB := (submit_score reqB dbA).state

def dbRebuilt : DB := update_all_ranks dbAB

/-- C8: from an empty leaderboard, after A (user 1) submits 100 they hold
total_score 100 and rank 1; after B (user 2) submits 150 B holds
total_score 150 and rank 1 while A's stored rank is still 1 (stale); after
`update_all_ranks` runs, A holds rank 2 and B rank 1. -/
theorem scenario_two_players :
    getEntry dbA.entries 1 = some ⟨1, 100, some 1⟩
    ∧ getEntry dbAB.entries 2 = some ⟨2, 150, some 1⟩
    ∧ getEntry dbAB.entries 1 = some ⟨1, 100, some 1⟩
    ∧ getEntry dbRebuilt.entries 1 = some ⟨1, 100, some 2⟩
    ∧ getEntry dbRebuilt.entries 2 = some ⟨2, 150, some 1⟩ := by decide

theorem assignRanks_map_rank (k : Nat) (l : List Entry) :
    (assignRanks k l).map Entry.rank = (List.range l.length).map (fun i => some (k + i)) := by
  induction l generalizing k with
  | nil => rfl
  | cons e es ih =>
    show some k :: (assignRanks (k + 1) es).map Entry.rank = _
    rw [ih (k + 1), List.length_cons, List.range_succ_eq_map, List.map_cons, List.map_map]
    have htail : List.map (fun i => some (k + 1 + i)) (List.range es.length)
        = List.map ((fun i => some (k + i)) ∘ Nat.succ) (List.range es.length) := by
      apply List.map_congr_left
      intro i _
      show some (k + 1 + i) = some (k + Nat.succ i)
      exact congrArg some (by omega)
    rw [htail]
    rfl

theorem assignRanks_map_strip (k : Nat) (l : List Entry) :
    (assignRanks k l).map stripRank = l.map stripRank := by
  induction l generalizing k with
  | nil => rfl
  | cons e es ih =>
    show stripRank { e with rank := some k } :: (assignRanks (k + 1) es).map stripRank = _
    rw [ih (k + 1)]
    rfl

/-- C1 amended: after `update_all_ranks`, the stored ranks are a dense
1..N sequence over ALL `LeaderboardEntry` rows — N is the total row count,
zero-score entries included, since the task applies no `total_score > 0`
filter — assigned in non-increasing `total_score` order (rank 1 = highest
total_score, ties in stable store order), and the rank assignment leaves
every row's `(userId, total_score)` content unchanged up to permutation. -/
theorem rebuild_ranks_dense (s : DB) :
    (update_all_ranks s).entries.map Entry.rank
      = (List.range s.entries.length).map (fun i => some (i + 1))
    ∧ List.Pairwise (fun a b : Nat × Nat => b.2 ≤ a.2)
        ((update_all_ranks s).entries.map stripRank)
    ∧ ((update_all_ranks s).entries.map stripRank).Perm (s.entries.map stripRank) := by
  refine ⟨?_, ?_, ?_⟩
  · show (assignRanks 1 (List.insertionSort scoreGe s.entries)).map Entry.rank = _
    rw [assignRanks_map_rank, (List.perm_insertionSort scoreGe s.entries).length_eq]
    apply List.map_congr_left
    intro i _
    rw [Nat.add_comm]
  · show List.Pairwise _ ((assignRanks 1 (List.insertionSort scoreGe s.entries)).map stripRank)
    rw [assignRanks_map_strip, List.pairwise_map]
    exact List.sorted_insertionSort scoreGe s.entries
  · show ((assignRanks 1 (List.insertionSort scoreGe s.entries)).map stripRank).Perm _
    rw [assignRanks_map_strip]
    exact (List.perm_insertionSort scoreGe s.entries).map stripRank

def s1cex : DB :=
  { sessions := [], entries := [⟨1, 100, none⟩, ⟨2, 0, none⟩], cacheTop50 := false }

/-- C1 counterexample: with one positive-score entry and one zero-score
entry, `update_all_ranks` assigns rank 2 to the zero-score entry even
though M (the count of entries with total_score > 0) is 1 — so ranks are
not confined to 1..M and a zero-score entry does hold a rank. -/
theorem rebuild_ranks_zero_score_cex :
    (update_all_ranks s1cex).entries = [⟨1, 100, some 1⟩, ⟨2, 0, some 2⟩]
    ∧ (s1cex.entries.filter (fun e => 0 < e.total_score)).length = 1
    ∧ getEntry (update_all_ranks s1cex).entries 2 = some ⟨2, 0, some 2⟩ := by decide

end GoComet
